import Mathlib

/-!
Verification development for the NES 6502 CPU core (`src/cpu.cpp`).

The C++ core is shallowly embedded: machine integers become `Nat` with
explicit `% 2 ^ w` where wrap-around can occur, the bus becomes a function
`Nat → Nat` (reads are truncated to a byte, mirroring the `u8` return type
of `Bus::Read`), and each CPU method becomes a pure function on an explicit
`CPUState`.  Bitwise masks of fixed-width values are translated to their
arithmetic form (`x & 0xFF` is `x % 256`, `x & 0xFF00` is `x / 256 * 256`,
`x & 0x80` is `x / 128 % 2 * 128`); the general-mask flag helpers keep
genuine bitwise operations.  Method pointers in the decode table become
`Option` tags interpreted by `runMode` / `runInstruction`.
-/

set_option maxRecDepth 8192

namespace NesCpu

/-- Modelled from the spec: the `Status` enum is declared in `cpu.h`, which is
not among the provided sources; spec §2.3 fixes the bit layout
(bit0 Carry … bit7 Negative). -/
def Status.Carry : Nat := 0x01

def Status.Zero : Nat := 0x02

def Status.InterruptDisable : Nat := 0x04

def Status.Decimal : Nat := 0x08

def Status.Break : Nat := 0x10

def Status.Unused : Nat := 0x20

def Status.Overflow : Nat := 0x40

def Status.Negative : Nat := 0x80

/-- Tag for the instruction-handler method pointers stored in the decode table. -/
inductive Instr where
  | LDA | LDX | LDY | STA | STX | STY | ADC | SBC | INC | DEC | INX | INY | DEX | DEY
deriving DecidableEq

/-- Tag for the addressing-mode method pointers stored in the decode table. -/
inductive Mode where
  | IMP | IMM | ZPG | ZPGX | ZPGY | ABS | ABSX | ABSY | IND | INDX | INDY | REL
deriving DecidableEq

/-- The CPU register file (`_a`, `_x`, `_y`, `_s`, `_p`, `_pc`, `_cycles`,
`_currentPageCrossPenalty`) together with the external bus.  The bus is a
memory function plus a log of the writes issued through `CPU::Write`
(newest first), so that "no write happened" is expressible. -/
structure CPUState where
  a : Nat
  x : Nat
  y : Nat
  s : Nat
  p : Nat
  pc : Nat
  cycles : Nat
  currentPageCrossPenalty : Bool
  mem : Nat → Nat
  writes : List (Nat × Nat)

/-- `CPU::Read`: forwards to the bus; the `u16` parameter and `u8` result give
the two truncations. -/
def CPU.Read (st : CPUState) (address : Nat) : Nat :=
  st.mem (address % 65536) % 256

/-- `CPU::Write`: forwards to the bus and is recorded in the write log. -/
def CPU.Write (st : CPUState) (address data : Nat) : CPUState :=
  { st with
      mem := fun a2 => if a2 = address % 65536 then data % 256 else st.mem a2
      writes := (address % 65536, data % 256) :: st.writes }

/-- `CPU::SetFlags`: `_p |= flag`. -/
def CPU.SetFlags (flag : Nat) (st : CPUState) : CPUState :=
  { st with p := st.p ||| flag }

/-- `CPU::ClearFlags`: `_p &= ~flag`; on a `u8` field this is a bitwise AND
with the low-byte complement of the mask. -/
def CPU.ClearFlags (flag : Nat) (st : CPUState) : CPUState :=
  { st with p := st.p &&& (255 ^^^ flag) }

/-- `CPU::IsFlagSet`: `(_p & flag) == flag`. -/
def CPU.IsFlagSet (flag : Nat) (st : CPUState) : Bool :=
  st.p &&& flag == flag

/-- The C++ ternary `cond ? SetFlags(flag) : ClearFlags(flag)` used throughout
`CPU::ADC` and `CPU::SBC`. -/
def CPU.updFlag (flag : Nat) (cond : Prop) [Decidable cond] (st : CPUState) : CPUState :=
  if cond then CPU.SetFlags flag st else CPU.ClearFlags flag st

/-- `CPU::SetZeroAndNegativeFlags`: clear Zero and Negative, set Zero when the
value is zero, set Negative when bit 7 (`value & 0b10000000`) is set. -/
def CPU.SetZeroAndNegativeFlags (value : Nat) (st : CPUState) : CPUState :=
  let st1 := CPU.ClearFlags (Status.Zero ||| Status.Negative) st
  let st2 := if value = 0 then CPU.SetFlags Status.Zero st1 else st1
  if value / 128 % 2 * 128 ≠ 0 then CPU.SetFlags Status.Negative st2 else st2

/-- Modelled from the spec: `CPU::IMP` is declared in `cpu.h`, which is not
among the sources.  Spec §4.3: implied mode reads 0 bytes, has no page-cross
penalty, and produces an address the handler ignores. -/
def CPU.IMP (st : CPUState) : Nat × CPUState :=
  (0, st)

/-- `CPU::IMM`: returns `_pc++` (the address of the operand byte). -/
def CPU.IMM (st : CPUState) : Nat × CPUState :=
  (st.pc, { st with pc := (st.pc + 1) % 65536 })

/-- `CPU::ZPG`: `Read(_pc++) & 0x00FF`. -/
def CPU.ZPG (st : CPUState) : Nat × CPUState :=
  (CPU.Read st st.pc % 256, { st with pc := (st.pc + 1) % 65536 })

/-- `CPU::ZPGX`: `(Read(_pc++) + _x) & 0x00FF`. -/
def CPU.ZPGX (st : CPUState) : Nat × CPUState :=
  ((CPU.Read st st.pc + st.x) % 256, { st with pc := (st.pc + 1) % 65536 })

/-- `CPU::ZPGY`: `(Read(_pc++) + _y) & 0x00FF`. -/
def CPU.ZPGY (st : CPUState) : Nat × CPUState :=
  ((CPU.Read st st.pc + st.y) % 256, { st with pc := (st.pc + 1) % 65536 })

/-- `CPU::ABS`: little-endian 16-bit address `(high << 8) | low` from the next
two bytes. -/
def CPU.ABS (st : CPUState) : Nat × CPUState :=
  let low := CPU.Read st st.pc
  let high := CPU.Read st ((st.pc + 1) % 65536)
  (high * 256 + low, { st with pc := (st.pc + 2) % 65536 })

/-- `CPU::ABSX`: absolute address plus X; when `_currentPageCrossPenalty` holds
and `(final_address & 0xFF00) != (address & 0xFF00)`, `_cycles++`. -/
def CPU.ABSX (st : CPUState) : Nat × CPUState :=
  let low := CPU.Read st st.pc
  let high := CPU.Read st ((st.pc + 1) % 65536)
  let address := high * 256 + low
  let final_address := (address + st.x) % 65536
  let st2 := { st with pc := (st.pc + 2) % 65536 }
  let st3 :=
    if st.currentPageCrossPenalty ∧ final_address / 256 * 256 ≠ address / 256 * 256 then
      { st2 with cycles := (st2.cycles + 1) % 2 ^ 64 }
    else st2
  (final_address, st3)

/-- `CPU::ABSY`: absolute address plus Y, with the same penalty rule as ABSX. -/
def CPU.ABSY (st : CPUState) : Nat × CPUState :=
  let low := CPU.Read st st.pc
  let high := CPU.Read st ((st.pc + 1) % 65536)
  let address := high * 256 + low
  let final_address := (address + st.y) % 65536
  let st2 := { st with pc := (st.pc + 2) % 65536 }
  let st3 :=
    if st.currentPageCrossPenalty ∧ final_address / 256 * 256 ≠ address / 256 * 256 then
      { st2 with cycles := (st2.cycles + 1) % 2 ^ 64 }
    else st2
  (final_address, st3)

/-- `CPU::IND`: reads a 16-bit pointer, then the target address through it; if
the pointer's low byte is `0xFF` the high byte of the target comes from
`ptr & 0xFF00` (the 6502 page-wrap bug), otherwise from `ptr + 1`. -/
def CPU.IND (st : CPUState) : Nat × CPUState :=
  let ptr_low := CPU.Read st st.pc
  let ptr_high := CPU.Read st ((st.pc + 1) % 65536)
  let st2 := { st with pc := (st.pc + 2) % 65536 }
  let ptr := ptr_high * 256 + ptr_low
  let address_low := CPU.Read st2 ptr
  let address_high :=
    if ptr_low = 255 then CPU.Read st2 (ptr / 256 * 256)
    else CPU.Read st2 ((ptr + 1) % 65536)
  (address_high * 256 + address_low, st2)

/-- `CPU::INDX`: zero-page pointer at `(operand + X) & 0xFF`, both pointer
bytes read inside the zero page. -/
def CPU.INDX (st : CPUState) : Nat × CPUState :=
  let zero_page_address := (CPU.Read st st.pc + st.x) % 256
  let st2 := { st with pc := (st.pc + 1) % 65536 }
  let ptr_low := CPU.Read st2 zero_page_address
  let ptr_high := CPU.Read st2 ((zero_page_address + 1) % 256)
  (ptr_high * 256 + ptr_low, st2)

/-- `CPU::INDY`: zero-page pointer, Y added to the final address; when
`_currentPageCrossPenalty` holds and `(address & 0xFF00) != (ptr_high << 8)`,
`_cycles++`. -/
def CPU.INDY (st : CPUState) : Nat × CPUState :=
  let zero_page_address := CPU.Read st st.pc
  let st2 := { st with pc := (st.pc + 1) % 65536 }
  let ptr_low := CPU.Read st2 zero_page_address
  let ptr_high := CPU.Read st2 ((zero_page_address + 1) % 256)
  let address := (ptr_high * 256 + ptr_low + st.y) % 65536
  let st3 :=
    if st.currentPageCrossPenalty ∧ address / 256 * 256 ≠ ptr_high * 256 then
      { st2 with cycles := (st2.cycles + 1) % 2 ^ 64 }
    else st2
  (address, st3)

/-- `CPU::REL`: `offset = (s8) Read(_pc)`, `address = _pc + offset` (computed as
a `u16`, i.e. two's-complement modulo 2^16), then `_pc++`. -/
def CPU.REL (st : CPUState) : Nat × CPUState :=
  let offset : Int :=
    if CPU.Read st st.pc < 128 then (CPU.Read st st.pc : Int)
    else (CPU.Read st st.pc : Int) - 256
  let address := (((st.pc : Int) + offset) % 65536).toNat
  (address, { st with pc := (st.pc + 1) % 65536 })

/-- `CPU::LoadRegister`: read the value, assign it through the register
reference, set Zero and Negative from it. -/
def CPU.LoadRegister (st : CPUState) (address : Nat) (setReg : CPUState → Nat → CPUState) : CPUState :=
  let value := CPU.Read st address
  CPU.SetZeroAndNegativeFlags value (setReg st value)

/-- `CPU::StoreRegister`: `Write(address, reg)`. -/
def CPU.StoreRegister (st : CPUState) (address reg : Nat) : CPUState :=
  CPU.Write st address reg

/-- `CPU::LDA`. -/
def CPU.LDA (address : Nat) (st : CPUState) : CPUState :=
  CPU.LoadRegister st address (fun t v => { t with a := v })

/-- `CPU::LDX`. -/
def CPU.LDX (address : Nat) (st : CPUState) : CPUState :=
  CPU.LoadRegister st address (fun t v => { t with x := v })

/-- `CPU::LDY`. -/
def CPU.LDY (address : Nat) (st : CPUState) : CPUState :=
  CPU.LoadRegister st address (fun t v => { t with y := v })

/-- `CPU::STA`. -/
def CPU.STA (address : Nat) (st : CPUState) : CPUState :=
  CPU.StoreRegister st address st.a

/-- `CPU::STX`. -/
def CPU.STX (address : Nat) (st : CPUState) : CPUState :=
  CPU.StoreRegister st address st.x

/-- `CPU::STY`. -/
def CPU.STY (address : Nat) (st : CPUState) : CPUState :=
  CPU.StoreRegister st address st.y

/-- `CPU::ADC`: 9-bit sum `A + value + carry_in`; carry when `sum > 0xFF`,
zero from `sum & 0xFF`, signed overflow from the three bit-7 sign bits,
negative from `sum & 0x80`; finally `A = sum & 0xFF`. -/
def CPU.ADC (address : Nat) (st : CPUState) : CPUState :=
  let value := CPU.Read st address
  let carry := if CPU.IsFlagSet Status.Carry st then 1 else 0
  let sum := st.a + value + carry
  let st1 := CPU.updFlag Status.Carry (sum > 255) st
  let st2 := CPU.updFlag Status.Zero (sum % 256 = 0) st1
  let accumulator_sign_bit := st.a / 128 % 2 * 128
  let value_sign_bit := value / 128 % 2 * 128
  let sum_sign_bit := sum / 128 % 2 * 128
  let st3 := CPU.updFlag Status.Overflow
    (accumulator_sign_bit = value_sign_bit ∧ accumulator_sign_bit ≠ sum_sign_bit) st2
  let st4 := CPU.updFlag Status.Negative (sum / 128 % 2 * 128 ≠ 0) st3
  { st4 with a := sum % 256 }

/-- `CPU::SBC`: `diff = A - value - borrow` computed as a `u16`
(two's-complement modulo 2^16 of the signed difference); carry when
`diff < 0x100`, zero from `diff & 0xFF`, signed overflow from the three
bit-7 sign bits, negative from `diff & 0x80`; finally `A = diff & 0xFF`. -/
def CPU.SBC (address : Nat) (st : CPUState) : CPUState :=
  let value := CPU.Read st address
  let carry := if CPU.IsFlagSet Status.Carry st then 0 else 1
  let diff := (st.a + 65536 - value - carry) % 65536
  let st1 := CPU.updFlag Status.Carry (diff < 256) st
  let st2 := CPU.updFlag Status.Zero (diff % 256 = 0) st1
  let accumulator_sign_bit := st.a / 128 % 2 * 128
  let value_sign_bit := value / 128 % 2 * 128
  let diff_sign_bit := diff / 128 % 2 * 128
  let st3 := CPU.updFlag Status.Overflow
    (accumulator_sign_bit ≠ value_sign_bit ∧ accumulator_sign_bit ≠ diff_sign_bit) st2
  let st4 := CPU.updFlag Status.Negative (diff / 128 % 2 * 128 ≠ 0) st3
  { st4 with a := diff % 256 }

/-- `CPU::INC`: `result = value + 1` as a `u8`, set Zero/Negative, write back. -/
def CPU.INC (address : Nat) (st : CPUState) : CPUState :=
  let value := CPU.Read st address
  let result := (value + 1) % 256
  let st1 := CPU.SetZeroAndNegativeFlags result st
  CPU.Write st1 address result

/-- `CPU::INX`: `_x++` as a `u8`, then set Zero/Negative from the new X. -/
def CPU.INX (address : Nat) (st : CPUState) : CPUState :=
  let st1 := { st with x := (st.x + 1) % 256 }
  CPU.SetZeroAndNegativeFlags st1.x st1

/-- `CPU::INY`: `_y++` as a `u8`, then set Zero/Negative from the new Y. -/
def CPU.INY (address : Nat) (st : CPUState) : CPUState :=
  let st1 := { st with y := (st.y + 1) % 256 }
  CPU.SetZeroAndNegativeFlags st1.y st1

/-- `CPU::DEC`: `result = value - 1` as a `u8`, set Zero/Negative, write back. -/
def CPU.DEC (address : Nat) (st : CPUState) : CPUState :=
  let value := CPU.Read st address
  let result := (value + 255) % 256
  let st1 := CPU.SetZeroAndNegativeFlags result st
  CPU.Write st1 address result

/-- `CPU::DEX`: `_x--` as a `u8`, then set Zero/Negative from the new X. -/
def CPU.DEX (address : Nat) (st : CPUState) : CPUState :=
  let st1 := { st with x := (st.x + 255) % 256 }
  CPU.SetZeroAndNegativeFlags st1.x st1

/-- `CPU::DEY`: `_y--` as a `u8`, then set Zero/Negative from the new Y. -/
def CPU.DEY (address : Nat) (st : CPUState) : CPUState :=
  let st1 := { st with y := (st.y + 255) % 256 }
  CPU.SetZeroAndNegativeFlags st1.y st1

/-- Dispatch for the addressing-mode method pointers. -/
def runMode : Mode → CPUState → Nat × CPUState
  | .IMP => CPU.IMP
  | .IMM => CPU.IMM
  | .ZPG => CPU.ZPG
  | .ZPGX => CPU.ZPGX
  | .ZPGY => CPU.ZPGY
  | .ABS => CPU.ABS
  | .ABSX => CPU.ABSX
  | .ABSY => CPU.ABSY
  | .IND => CPU.IND
  | .INDX => CPU.INDX
  | .INDY => CPU.INDY
  | .REL => CPU.REL

/-- Dispatch for the instruction-handler method pointers. -/
def runInstruction : Instr → Nat → CPUState → CPUState
  | .LDA => CPU.LDA
  | .LDX => CPU.LDX
  | .LDY => CPU.LDY
  | .STA => CPU.STA
  | .STX => CPU.STX
  | .STY => CPU.STY
  | .ADC => CPU.ADC
  | .SBC => CPU.SBC
  | .INC => CPU.INC
  | .DEC => CPU.DEC
  | .INX => CPU.INX
  | .INY => CPU.INY
  | .DEX => CPU.DEX
  | .DEY => CPU.DEY

/-- One decode-table entry: label, the two (nullable) method pointers, base
cycle count, and the page-cross-penalty flag. -/
structure InstructionData where
  label : String
  instructionMethod : Option Instr
  addressingModeMethod : Option Mode
  cycles : Nat
  pageCrossPenalty : Bool
deriving DecidableEq

/-- A 4-field `InstructionData{...}` aggregate from the constructor.
Modelled from the spec for the omitted field: `cpu.h` (not in the sources)
declares `pageCrossPenalty`; spec §3 fixes its default to `true`. -/
def entry4 (label : String) (i : Instr) (m : Mode) (c : Nat) : InstructionData :=
  ⟨label, some i, some m, c, true⟩

/-- A 5-field `InstructionData{...}` aggregate from the constructor (the
entries written with an explicit `false`). -/
def entry5 (label : String) (i : Instr) (m : Mode) (c : Nat) (pen : Bool) : InstructionData :=
  ⟨label, some i, some m, c, pen⟩

/-- A value-initialized entry (`_opcodeTable{}`): null method pointers. -/
def nullEntry : InstructionData :=
  ⟨"", none, none, 0, false⟩

/-- The decode table built by `CPU::CPU`. -/
def opcodeTable : Nat → InstructionData
  | 0xA9 => entry4 "LDA_Immediate" .LDA .IMM 2
  | 0xA5 => entry4 "LDA_ZeroPage" .LDA .ZPG 3
  | 0xB5 => entry4 "LDA_ZeroPageX" .LDA .ZPGX 4
  | 0xAD => entry4 "LDA_Absolute" .LDA .ABS 4
  | 0xBD => entry4 "LDA_AbsoluteX" .LDA .ABSX 4
  | 0xB9 => entry4 "LDA_AbsoluteY" .LDA .ABSY 4
  | 0xA1 => entry4 "LDA_IndirectX" .LDA .INDX 6
  | 0xB1 => entry4 "LDA_IndirectY" .LDA .INDY 5
  | 0xA2 => entry4 "LDX_Immediate" .LDX .IMM 2
  | 0xA6 => entry4 "LDX_ZeroPage" .LDX .ZPG 3
  | 0xB6 => entry4 "LDX_ZeroPageY" .LDX .ZPGY 4
  | 0xAE => entry4 "LDX_Absolute" .LDX .ABS 4
  | 0xBE => entry4 "LDX_AbsoluteY" .LDX .ABSY 4
  | 0xA0 => entry4 "LDY_Immediate" .LDY .IMM 2
  | 0xA4 => entry4 "LDY_ZeroPage" .LDY .ZPG 3
  | 0xB4 => entry4 "LDY_ZeroPageX" .LDY .ZPGX 4
  | 0xAC => entry4 "LDY_Absolute" .LDY .ABS 4
  | 0xBC => entry4 "LDY_AbsoluteX" .LDY .ABSX 4
  | 0x85 => entry4 "STA_ZeroPage" .STA .ZPG 3
  | 0x95 => entry4 "STA_ZeroPageX" .STA .ZPGX 4
  | 0x8D => entry4 "STA_Absolute" .STA .ABS 4
  | 0x9D => entry5 "STA_AbsoluteX" .STA .ABSX 5 false
  | 0x99 => entry5 "STA_AbsoluteY" .STA .ABSY 5 false
  | 0x81 => entry5 "STA_IndirectX" .STA .INDX 6 false
  | 0x91 => entry5 "STA_IndirectY" .STA .INDY 6 false
  | 0x86 => entry4 "STX_ZeroPage" .STX .ZPG 3
  | 0x96 => entry4 "STX_ZeroPageY" .STX .ZPGY 4
  | 0x8E => entry4 "STX_Absolute" .STX .ABS 4
  | 0x84 => entry4 "STY_ZeroPage" .STY .ZPG 3
  | 0x94 => entry4 "STY_ZeroPageX" .STY .ZPGX 4
  | 0x8C => entry4 "STY_Absolute" .STY .ABS 4
  | 0x69 => entry4 "ADC_Immediate" .ADC .IMM 2
  | 0x65 => entry4 "ADC_ZeroPage" .ADC .ZPG 3
  | 0x75 => entry4 "ADC_ZeroPageX" .ADC .ZPGX 4
  | 0x6D => entry4 "ADC_Absolute" .ADC .ABS 4
  | 0x7D => entry4 "ADC_AbsoluteX" .ADC .ABSX 4
  | 0x79 => entry4 "ADC_AbsoluteY" .ADC .ABSY 4
  | 0x61 => entry4 "ADC_IndirectX" .ADC .INDX 6
  | 0x71 => entry4 "ADC_IndirectY" .ADC .INDY 5
  | 0xE9 => entry4 "SBC_Immediate" .SBC .IMM 2
  | 0xE5 => entry4 "SBC_ZeroPage" .SBC .ZPG 3
  | 0xF5 => entry4 "SBC_ZeroPageX" .SBC .ZPGX 4
  | 0xED => entry4 "SBC_Absolute" .SBC .ABS 4
  | 0xFD => entry4 "SBC_AbsoluteX" .SBC .ABSX 4
  | 0xF9 => entry4 "SBC_AbsoluteY" .SBC .ABSY 4
  | 0xE1 => entry4 "SBC_IndirectX" .SBC .INDX 6
  | 0xF1 => entry4 "SBC_IndirectY" .SBC .INDY 5
  | 0xE6 => entry4 "INC_ZeroPage" .INC .ZPG 5
  | 0xF6 => entry4 "INC_ZeroPageX" .INC .ZPGX 6
  | 0xEE => entry4 "INC_Absolute" .INC .ABS 6
  | 0xFE => entry5 "INC_AbsoluteX" .INC .ABSX 7 false
  | 0xC6 => entry4 "DEC_ZeroPage" .DEC .ZPG 5
  | 0xD6 => entry4 "DEC_ZeroPageX" .DEC .ZPGX 6
  | 0xCE => entry4 "DEC_Absolute" .DEC .ABS 6
  | 0xDE => entry5 "DEC_AbsoluteX" .DEC .ABSX 7 false
  | 0xE8 => entry4 "INX" .INX .IMP 2
  | 0xC8 => entry4 "INY" .INY .IMP 2
  | 0xCA => entry4 "DEX" .DEX .IMP 2
  | 0x88 => entry4 "DEY" .DEY .IMP 2
  | _ => nullEntry

/-- `CPU::Tick`: fetch, decode, and either execute (set the penalty policy,
resolve the address, run the handler, add the base cycles) or emit a
diagnostic naming the opcode.  The `std::cerr` message is modelled as the
second component: `some opcode` when the bad-opcode path is taken. -/
def Tick (st : CPUState) : CPUState × Option Nat :=
  let opcode := CPU.Read st st.pc
  let st1 := { st with pc := (st.pc + 1) % 65536 }
  let instruction := opcodeTable opcode
  match instruction.instructionMethod, instruction.addressingModeMethod with
  | some i, some m =>
    let st2 := { st1 with currentPageCrossPenalty := instruction.pageCrossPenalty }
    let addrSt := runMode m st2
    let st4 := runInstruction i addrSt.1 addrSt.2
    ({ st4 with cycles := (st4.cycles + instruction.cycles) % 2 ^ 64 }, none)
  | _, _ => (st1, some opcode)

/-- `CPU::Reset`. -/
def Reset (st : CPUState) : CPUState :=
  { st with
      a := 0
      x := 0
      y := 0
      s := 0xFD
      p := 0x00 ||| Status.Unused
      cycles := 0
      pc := CPU.Read st 0xFFFD * 256 + CPU.Read st 0xFFFC }

/-- `CPU::SetStackPointer` (a `u8`-typed unchecked setter). -/
def SetStackPointer (value : Nat) (st : CPUState) : CPUState :=
  { st with s := value % 256 }

/-!
Spec-side definitions.  These follow the wording of the spec's claims, not the
source, and are compared with the embedded code by the theorems below.
-/

/-- Spec-side: the page of an address — "a 256-byte region whose high byte is
constant". -/
def pageOf (address : Nat) : Nat :=
  address / 256

/-- Spec-side: the base address, as named by the cycle-accounting claim, for
the three addressing modes that can pay a page-cross penalty: the 16-bit
little-endian operand for ABSX/ABSY, and the zero-page pointer's target for
INDY.  Other modes have no base/effective pair. -/
def baseAddr : Mode → CPUState → Nat
  | .ABSX, st => CPU.Read st st.pc + 256 * CPU.Read st ((st.pc + 1) % 65536)
  | .ABSY, st => CPU.Read st st.pc + 256 * CPU.Read st ((st.pc + 1) % 65536)
  | .INDY, st => CPU.Read st (CPU.Read st st.pc) + 256 * CPU.Read st ((CPU.Read st st.pc + 1) % 256)
  | _, _ => 0

/-- Spec-side: the computed effective address (base plus index register,
modulo 2^16) for the three penalty modes. -/
def effAddr : Mode → CPUState → Nat
  | .ABSX, st => (baseAddr .ABSX st + st.x) % 65536
  | .ABSY, st => (baseAddr .ABSY st + st.y) % 65536
  | .INDY, st => (baseAddr .INDY st + st.y) % 65536
  | _, _ => 0

/-- Spec-side: the page-cross penalty as the cycle-accounting claim words it —
1 exactly when the entry's penalty flag is honored, the mode is ABSX, ABSY or
INDY, and the effective address lies in a different page than the base. -/
def specPagePenalty (honored : Bool) (m : Mode) (st : CPUState) : Nat :=
  if honored = true ∧ (m = .ABSX ∨ m = .ABSY ∨ m = .INDY) ∧
      pageOf (effAddr m st) ≠ pageOf (baseAddr m st)
  then 1 else 0

/-- Spec-side: the target address IND must produce according to the page-wrap
claim — the high byte comes from the start of the pointer's own page
(`pointer - pointer % 256`) when the pointer's low byte is 0xFF, and from
`pointer + 1` otherwise. -/
def specIndTarget (st : CPUState) : Nat :=
  let pointer := CPU.Read st st.pc + 256 * CPU.Read st ((st.pc + 1) % 65536)
  let lowByte := CPU.Read st pointer
  let highByte :=
    if pointer % 256 = 255 then CPU.Read st (pointer - pointer % 256)
    else CPU.Read st ((pointer + 1) % 65536)
  256 * highByte + lowByte

/-- Spec-side: the opcodes the decode-table claim enumerates (LDA×8, LDX×5,
LDY×5, STA×7, STX×3, STY×3, ADC×8, SBC×8, INC×4, DEC×4, INX/INY/DEX/DEY). -/
def implementedOpcodes : List Nat :=
  [0xA9, 0xA5, 0xB5, 0xAD, 0xBD, 0xB9, 0xA1, 0xB1,
   0xA2, 0xA6, 0xB6, 0xAE, 0xBE,
   0xA0, 0xA4, 0xB4, 0xAC, 0xBC,
   0x85, 0x95, 0x8D, 0x9D, 0x99, 0x81, 0x91,
   0x86, 0x96, 0x8E,
   0x84, 0x94, 0x8C,
   0x69, 0x65, 0x75, 0x6D, 0x7D, 0x79, 0x61, 0x71,
   0xE9, 0xE5, 0xF5, 0xED, 0xFD, 0xF9, 0xE1, 0xF1,
   0xE6, 0xF6, 0xEE, 0xFE,
   0xC6, 0xD6, 0xCE, 0xDE,
   0xE8, 0xC8, 0xCA, 0x88]

/-- Spec-side: the status bits each handler group leaves untouched, as an
8-bit mask (claim C9): loads and increments/decrements may touch only
Zero and Negative (mask 0x7D preserved), stores touch nothing (0xFF),
ADC/SBC may touch only Carry, Zero, Overflow, Negative (0x3C preserved). -/
def preservedMask : Instr → Nat
  | .STA | .STX | .STY => 0xFF
  | .ADC | .SBC => 0x3C
  | _ => 0x7D

/-- Concrete machine state used by closed theorems: registers and flags at
given values, cycle counter 0, penalty flag off, empty write log. -/
def mkState (a x y s p pc : Nat) (mem : Nat → Nat) : CPUState :=
  ⟨a, x, y, s, p, pc, 0, false, mem, []⟩

/-- Concrete state whose memory holds the LDA-immediate opcode everywhere. -/
def stLdaImm : CPUState :=
  mkState 0 0 0 0 0 0 (fun _ => 0xA9)

/-- Concrete state whose memory holds opcode 0x00 (unimplemented) everywhere. -/
def stBadOp : CPUState :=
  mkState 1 2 3 4 5 0x1234 (fun _ => 0x00)

/-- Concrete state for the relative-mode example: PC = 0x8000, offset byte
0x10 at every address. -/
def stRel : CPUState :=
  mkState 0 0 0 0 0 0x8000 (fun _ => 0x10)

/-- Concrete state for the IND page-wrap example: opcode operand bytes 0xFF,
0x02 at PC = 0x8000 (pointer 0x02FF), 0x34 at 0x02FF, 0x12 at 0x0200 and
0x99 at 0x0300. -/
def stIndBug : CPUState :=
  mkState 0 0 0 0 0 0x8000 (fun a2 =>
    if a2 = 0x8000 then 0xFF
    else if a2 = 0x8001 then 0x02
    else if a2 = 0x02FF then 0x34
    else if a2 = 0x0200 then 0x12
    else if a2 = 0x0300 then 0x99
    else 0)

/-- Concrete all-zero state. -/
def stZero : CPUState :=
  mkState 0 0 0 0 0 0 (fun _ => 0)

/-!
Helper lemmas about the flag bit operations.
-/

theorem and_or_skip (p f M : Nat) (h : f &&& M = 0) : (p ||| f) &&& M = p &&& M := by
  refine Nat.eq_of_testBit_eq fun i => ?_
  have hf := congrArg (fun z => Nat.testBit z i) h
  simp only [Nat.testBit_land, Nat.zero_testBit] at hf
  simp only [Nat.testBit_land, Nat.testBit_lor]
  cases hp : p.testBit i <;> cases hM : M.testBit i <;> cases hff : f.testBit i <;> simp_all

theorem or_and_self (p m : Nat) : (p ||| m) &&& m = m := by
  refine Nat.eq_of_testBit_eq fun i => ?_
  simp only [Nat.testBit_land, Nat.testBit_lor]
  cases p.testBit i <;> cases m.testBit i <;> simp

theorem and_and_skip (p c M : Nat) (h : c &&& M = M) : (p &&& c) &&& M = p &&& M := by
  rw [Nat.land_assoc, h]

theorem and_zero_right (p : Nat) : p &&& 0 = 0 := by
  refine Nat.eq_of_testBit_eq fun i => ?_
  simp [Nat.testBit_land]

theorem and_of_and_eq {p1 p2 : Nat} (M N : Nat) (h : p1 &&& M = p2 &&& M) (hN : M &&& N = N) :
    p1 &&& N = p2 &&& N := by
  rw [← hN, ← Nat.land_assoc, ← Nat.land_assoc, h]

theorem updFlag_p_and_self (m : Nat) {c : Prop} [Decidable c] (st : CPUState)
    (h : (255 ^^^ m) &&& m = 0) :
    (CPU.updFlag m c st).p &&& m = if c then m else 0 := by
  unfold CPU.updFlag CPU.SetFlags CPU.ClearFlags
  split
  · simp [or_and_self]
  · simp [Nat.land_assoc, h, and_zero_right]

theorem updFlag_p_and_skip (m M : Nat) {c : Prop} [Decidable c] {st : CPUState}
    (h1 : m &&& M = 0) (h2 : (255 ^^^ m) &&& M = M) :
    (CPU.updFlag m c st).p &&& M = st.p &&& M := by
  unfold CPU.updFlag CPU.SetFlags CPU.ClearFlags
  split
  · exact and_or_skip _ _ _ h1
  · exact and_and_skip _ _ _ h2

theorem updFlag_a (m : Nat) {c : Prop} [Decidable c] (st : CPUState) :
    (CPU.updFlag m c st).a = st.a := by
  unfold CPU.updFlag CPU.SetFlags CPU.ClearFlags; split <;> rfl

theorem updFlag_x (m : Nat) {c : Prop} [Decidable c] (st : CPUState) :
    (CPU.updFlag m c st).x = st.x := by
  unfold CPU.updFlag CPU.SetFlags CPU.ClearFlags; split <;> rfl

theorem updFlag_y (m : Nat) {c : Prop} [Decidable c] (st : CPUState) :
    (CPU.updFlag m c st).y = st.y := by
  unfold CPU.updFlag CPU.SetFlags CPU.ClearFlags; split <;> rfl

theorem updFlag_s (m : Nat) {c : Prop} [Decidable c] (st : CPUState) :
    (CPU.updFlag m c st).s = st.s := by
  unfold CPU.updFlag CPU.SetFlags CPU.ClearFlags; split <;> rfl

theorem updFlag_pc (m : Nat) {c : Prop} [Decidable c] (st : CPUState) :
    (CPU.updFlag m c st).pc = st.pc := by
  unfold CPU.updFlag CPU.SetFlags CPU.ClearFlags; split <;> rfl

theorem updFlag_cycles (m : Nat) {c : Prop} [Decidable c] (st : CPUState) :
    (CPU.updFlag m c st).cycles = st.cycles := by
  unfold CPU.updFlag CPU.SetFlags CPU.ClearFlags; split <;> rfl

theorem updFlag_mem (m : Nat) {c : Prop} [Decidable c] (st : CPUState) :
    (CPU.updFlag m c st).mem = st.mem := by
  unfold CPU.updFlag CPU.SetFlags CPU.ClearFlags; split <;> rfl

theorem updFlag_writes (m : Nat) {c : Prop} [Decidable c] (st : CPUState) :
    (CPU.updFlag m c st).writes = st.writes := by
  unfold CPU.updFlag CPU.SetFlags CPU.ClearFlags; split <;> rfl

/-!
Characterization of `SetZeroAndNegativeFlags`.
-/

theorem SZN_p_zero (value : Nat) (st : CPUState) :
    (CPU.SetZeroAndNegativeFlags value st).p &&& 2 = if value = 0 then 2 else 0 := by
  simp only [CPU.SetZeroAndNegativeFlags, CPU.SetFlags, CPU.ClearFlags,
    Status.Zero, Status.Negative]
  split_ifs with h1 h2 h3
  · rw [and_or_skip _ 128 2 (by decide), or_and_self]
  · rw [and_or_skip _ 128 2 (by decide), Nat.land_assoc,
      show (255 ^^^ (2 ||| 128)) &&& 2 = 0 by decide, and_zero_right]
  · rw [or_and_self]
  · rw [Nat.land_assoc, show (255 ^^^ (2 ||| 128)) &&& 2 = 0 by decide, and_zero_right]

theorem SZN_p_negative (value : Nat) (st : CPUState) :
    (CPU.SetZeroAndNegativeFlags value st).p &&& 128 =
      if value / 128 % 2 * 128 ≠ 0 then 128 else 0 := by
  simp only [CPU.SetZeroAndNegativeFlags, CPU.SetFlags, CPU.ClearFlags,
    Status.Zero, Status.Negative]
  split_ifs with h1 h2 h3
  · rw [or_and_self]
  · rw [or_and_self]
  · rw [and_or_skip _ 2 128 (by decide), Nat.land_assoc,
      show (255 ^^^ (2 ||| 128)) &&& 128 = 0 by decide, and_zero_right]
  · rw [Nat.land_assoc, show (255 ^^^ (2 ||| 128)) &&& 128 = 0 by decide, and_zero_right]

theorem SZN_p_rest (value : Nat) (st : CPUState) :
    (CPU.SetZeroAndNegativeFlags value st).p &&& 125 = st.p &&& 125 := by
  simp only [CPU.SetZeroAndNegativeFlags, CPU.SetFlags, CPU.ClearFlags,
    Status.Zero, Status.Negative]
  split_ifs with h1 h2 h3 <;>
    [skip; skip; skip; skip] <;>
    (try rw [and_or_skip _ 128 125 (by decide)]) <;>
    (try rw [and_or_skip _ 2 125 (by decide)]) <;>
    rw [and_and_skip _ _ _ (by decide)]

theorem SZN_a (value : Nat) (st : CPUState) :
    (CPU.SetZeroAndNegativeFlags value st).a = st.a := by
  simp only [CPU.SetZeroAndNegativeFlags, CPU.SetFlags, CPU.ClearFlags]
  split_ifs <;> rfl

theorem SZN_x (value : Nat) (st : CPUState) :
    (CPU.SetZeroAndNegativeFlags value st).x = st.x := by
  simp only [CPU.SetZeroAndNegativeFlags, CPU.SetFlags, CPU.ClearFlags]
  split_ifs <;> rfl

theorem SZN_y (value : Nat) (st : CPUState) :
    (CPU.SetZeroAndNegativeFlags value st).y = st.y := by
  simp only [CPU.SetZeroAndNegativeFlags, CPU.SetFlags, CPU.ClearFlags]
  split_ifs <;> rfl

theorem SZN_s (value : Nat) (st : CPUState) :
    (CPU.SetZeroAndNegativeFlags value st).s = st.s := by
  simp only [CPU.SetZeroAndNegativeFlags, CPU.SetFlags, CPU.ClearFlags]
  split_ifs <;> rfl

theorem SZN_pc (value : Nat) (st : CPUState) :
    (CPU.SetZeroAndNegativeFlags value st).pc = st.pc := by
  simp only [CPU.SetZeroAndNegativeFlags, CPU.SetFlags, CPU.ClearFlags]
  split_ifs <;> rfl

theorem SZN_cycles (value : Nat) (st : CPUState) :
    (CPU.SetZeroAndNegativeFlags value st).cycles = st.cycles := by
  simp only [CPU.SetZeroAndNegativeFlags, CPU.SetFlags, CPU.ClearFlags]
  split_ifs <;> rfl

theorem SZN_mem (value : Nat) (st : CPUState) :
    (CPU.SetZeroAndNegativeFlags value st).mem = st.mem := by
  simp only [CPU.SetZeroAndNegativeFlags, CPU.SetFlags, CPU.ClearFlags]
  split_ifs <;> rfl

theorem SZN_writes (value : Nat) (st : CPUState) :
    (CPU.SetZeroAndNegativeFlags value st).writes = st.writes := by
  simp only [CPU.SetZeroAndNegativeFlags, CPU.SetFlags, CPU.ClearFlags]
  split_ifs <;> rfl

/-!
Characterization of `ADC` and `SBC`.
-/

theorem ADC_a (address : Nat) (st : CPUState) :
    (CPU.ADC address st).a =
      (st.a + CPU.Read st address + (if CPU.IsFlagSet Status.Carry st then 1 else 0)) % 256 := by
  simp only [CPU.ADC]

theorem ADC_carry (address : Nat) (st : CPUState) :
    (CPU.ADC address st).p &&& 1 =
      if st.a + CPU.Read st address + (if CPU.IsFlagSet Status.Carry st then 1 else 0) > 255
      then 1 else 0 := by
  simp only [CPU.ADC, Status.Carry, Status.Zero, Status.Overflow, Status.Negative]
  rw [updFlag_p_and_skip 128 1 (by decide) (by decide),
    updFlag_p_and_skip 64 1 (by decide) (by decide),
    updFlag_p_and_skip 2 1 (by decide) (by decide),
    updFlag_p_and_self 1 _ (by decide)]

theorem ADC_zero (address : Nat) (st : CPUState) :
    (CPU.ADC address st).p &&& 2 =
      if (st.a + CPU.Read st address + (if CPU.IsFlagSet Status.Carry st then 1 else 0)) % 256 = 0
      then 2 else 0 := by
  simp only [CPU.ADC, Status.Carry, Status.Zero, Status.Overflow, Status.Negative]
  rw [updFlag_p_and_skip 128 2 (by decide) (by decide),
    updFlag_p_and_skip 64 2 (by decide) (by decide),
    updFlag_p_and_self 2 _ (by decide)]

theorem ADC_overflow (address : Nat) (st : CPUState) :
    (CPU.ADC address st).p &&& 64 =
      if st.a / 128 % 2 * 128 = CPU.Read st address / 128 % 2 * 128 ∧
          st.a / 128 % 2 * 128 ≠
            (st.a + CPU.Read st address + (if CPU.IsFlagSet Status.Carry st then 1 else 0))
              / 128 % 2 * 128
      then 64 else 0 := by
  simp only [CPU.ADC, Status.Carry, Status.Zero, Status.Overflow, Status.Negative]
  rw [updFlag_p_and_skip 128 64 (by decide) (by decide),
    updFlag_p_and_self 64 _ (by decide)]

theorem ADC_negative (address : Nat) (st : CPUState) :
    (CPU.ADC address st).p &&& 128 =
      if (st.a + CPU.Read st address + (if CPU.IsFlagSet Status.Carry st then 1 else 0))
          / 128 % 2 * 128 ≠ 0
      then 128 else 0 := by
  simp only [CPU.ADC, Status.Carry, Status.Zero, Status.Overflow, Status.Negative]
  rw [updFlag_p_and_self 128 _ (by decide)]

theorem ADC_rest (address : Nat) (st : CPUState) :
    (CPU.ADC address st).p &&& 60 = st.p &&& 60 := by
  simp only [CPU.ADC, Status.Carry, Status.Zero, Status.Overflow, Status.Negative]
  rw [updFlag_p_and_skip 128 60 (by decide) (by decide),
    updFlag_p_and_skip 64 60 (by decide) (by decide),
    updFlag_p_and_skip 2 60 (by decide) (by decide),
    updFlag_p_and_skip 1 60 (by decide) (by decide)]

theorem ADC_regs (address : Nat) (st : CPUState) :
    (CPU.ADC address st).x = st.x ∧ (CPU.ADC address st).y = st.y ∧
    (CPU.ADC address st).s = st.s ∧ (CPU.ADC address st).pc = st.pc ∧
    (CPU.ADC address st).cycles = st.cycles ∧ (CPU.ADC address st).mem = st.mem ∧
    (CPU.ADC address st).writes = st.writes := by
  simp only [CPU.ADC]
  exact ⟨by simp [updFlag_x], by simp [updFlag_y], by simp [updFlag_s], by simp [updFlag_pc],
    by simp [updFlag_cycles], by simp [updFlag_mem], by simp [updFlag_writes]⟩

theorem SBC_a (address : Nat) (st : CPUState) :
    (CPU.SBC address st).a =
      (st.a + 65536 - CPU.Read st address -
        (if CPU.IsFlagSet Status.Carry st then 0 else 1)) % 65536 % 256 := by
  simp only [CPU.SBC]

theorem SBC_carry (address : Nat) (st : CPUState) :
    (CPU.SBC address st).p &&& 1 =
      if (st.a + 65536 - CPU.Read st address -
          (if CPU.IsFlagSet Status.Carry st then 0 else 1)) % 65536 < 256
      then 1 else 0 := by
  simp only [CPU.SBC, Status.Carry, Status.Zero, Status.Overflow, Status.Negative]
  rw [updFlag_p_and_skip 128 1 (by decide) (by decide),
    updFlag_p_and_skip 64 1 (by decide) (by decide),
    updFlag_p_and_skip 2 1 (by decide) (by decide),
    updFlag_p_and_self 1 _ (by decide)]

theorem SBC_zero (address : Nat) (st : CPUState) :
    (CPU.SBC address st).p &&& 2 =
      if (st.a + 65536 - CPU.Read st address -
          (if CPU.IsFlagSet Status.Carry st then 0 else 1)) % 65536 % 256 = 0
      then 2 else 0 := by
  simp only [CPU.SBC, Status.Carry, Status.Zero, Status.Overflow, Status.Negative]
  rw [updFlag_p_and_skip 128 2 (by decide) (by decide),
    updFlag_p_and_skip 64 2 (by decide) (by decide),
    updFlag_p_and_self 2 _ (by decide)]

theorem SBC_overflow (address : Nat) (st : CPUState) :
    (CPU.SBC address st).p &&& 64 =
      if st.a / 128 % 2 * 128 ≠ CPU.Read st address / 128 % 2 * 128 ∧
          st.a / 128 % 2 * 128 ≠
            (st.a + 65536 - CPU.Read st address -
              (if CPU.IsFlagSet Status.Carry st then 0 else 1)) % 65536 / 128 % 2 * 128
      then 64 else 0 := by
  simp only [CPU.SBC, Status.Carry, Status.Zero, Status.Overflow, Status.Negative]
  rw [updFlag_p_and_skip 128 64 (by decide) (by decide),
    updFlag_p_and_self 64 _ (by decide)]

theorem SBC_negative (address : Nat) (st : CPUState) :
    (CPU.SBC address st).p &&& 128 =
      if (st.a + 65536 - CPU.Read st address -
          (if CPU.IsFlagSet Status.Carry st then 0 else 1)) % 65536 / 128 % 2 * 128 ≠ 0
      then 128 else 0 := by
  simp only [CPU.SBC, Status.Carry, Status.Zero, Status.Overflow, Status.Negative]
  rw [updFlag_p_and_self 128 _ (by decide)]

theorem SBC_rest (address : Nat) (st : CPUState) :
    (CPU.SBC address st).p &&& 60 = st.p &&& 60 := by
  simp only [CPU.SBC, Status.Carry, Status.Zero, Status.Overflow, Status.Negative]
  rw [updFlag_p_and_skip 128 60 (by decide) (by decide),
    updFlag_p_and_skip 64 60 (by decide) (by decide),
    updFlag_p_and_skip 2 60 (by decide) (by decide),
    updFlag_p_and_skip 1 60 (by decide) (by decide)]

theorem SBC_regs (address : Nat) (st : CPUState) :
    (CPU.SBC address st).x = st.x ∧ (CPU.SBC address st).y = st.y ∧
    (CPU.SBC address st).s = st.s ∧ (CPU.SBC address st).pc = st.pc ∧
    (CPU.SBC address st).cycles = st.cycles ∧ (CPU.SBC address st).mem = st.mem ∧
    (CPU.SBC address st).writes = st.writes := by
  simp only [CPU.SBC]
  exact ⟨by simp [updFlag_x], by simp [updFlag_y], by simp [updFlag_s], by simp [updFlag_pc],
    by simp [updFlag_cycles], by simp [updFlag_mem], by simp [updFlag_writes]⟩

/-!
Frame lemmas for the addressing modes and instruction handlers.
-/

theorem Read_set_pc (st : CPUState) (q address : Nat) :
    CPU.Read { st with pc := q } address = CPU.Read st address := rfl

theorem Write_p (st : CPUState) (address data : Nat) :
    (CPU.Write st address data).p = st.p := rfl

theorem Write_a (st : CPUState) (address data : Nat) :
    (CPU.Write st address data).a = st.a := rfl

theorem Write_x (st : CPUState) (address data : Nat) :
    (CPU.Write st address data).x = st.x := rfl

theorem Write_y (st : CPUState) (address data : Nat) :
    (CPU.Write st address data).y = st.y := rfl

theorem Write_s (st : CPUState) (address data : Nat) :
    (CPU.Write st address data).s = st.s := rfl

theorem Write_pc (st : CPUState) (address data : Nat) :
    (CPU.Write st address data).pc = st.pc := rfl

theorem Write_cycles (st : CPUState) (address data : Nat) :
    (CPU.Write st address data).cycles = st.cycles := rfl

theorem runMode_p (m : Mode) (st : CPUState) : (runMode m st).2.p = st.p := by
  cases m <;>
    simp only [runMode, CPU.IMP, CPU.IMM, CPU.ZPG, CPU.ZPGX, CPU.ZPGY, CPU.ABS, CPU.ABSX,
      CPU.ABSY, CPU.IND, CPU.INDX, CPU.INDY, CPU.REL] <;>
    (try split) <;> rfl

theorem runMode_s (m : Mode) (st : CPUState) : (runMode m st).2.s = st.s := by
  cases m <;>
    simp only [runMode, CPU.IMP, CPU.IMM, CPU.ZPG, CPU.ZPGX, CPU.ZPGY, CPU.ABS, CPU.ABSX,
      CPU.ABSY, CPU.IND, CPU.INDX, CPU.INDY, CPU.REL] <;>
    (try split) <;> rfl

theorem runMode_cycles (m : Mode) (st : CPUState) (hc : st.cycles + 1 < 2 ^ 64) :
    (runMode m st).2.cycles = st.cycles + specPagePenalty st.currentPageCrossPenalty m st := by
  cases m
  case IMP => simp [runMode, CPU.IMP, specPagePenalty]
  case IMM => simp [runMode, CPU.IMM, specPagePenalty]
  case ZPG => simp [runMode, CPU.ZPG, specPagePenalty]
  case ZPGX => simp [runMode, CPU.ZPGX, specPagePenalty]
  case ZPGY => simp [runMode, CPU.ZPGY, specPagePenalty]
  case ABS => simp [runMode, CPU.ABS, specPagePenalty]
  case REL => simp [runMode, CPU.REL, specPagePenalty]
  case IND => simp [runMode, CPU.IND, specPagePenalty]
  case INDX => simp [runMode, CPU.INDX, specPagePenalty]
  case ABSX =>
    cases hb : st.currentPageCrossPenalty
    · simp [runMode, CPU.ABSX, specPagePenalty, hb]
    · simp only [runMode, CPU.ABSX, specPagePenalty, effAddr, baseAddr, pageOf, hb,
        true_and, apply_ite CPUState.cycles]
      simp only [eq_self_iff_true, true_or, or_true, true_and]
      rw [Nat.mod_eq_of_lt hc]
      split_ifs <;> omega
  case ABSY =>
    cases hb : st.currentPageCrossPenalty
    · simp [runMode, CPU.ABSY, specPagePenalty, hb]
    · simp only [runMode, CPU.ABSY, specPagePenalty, effAddr, baseAddr, pageOf, hb,
        true_and, apply_ite CPUState.cycles]
      simp only [eq_self_iff_true, true_or, or_true, true_and]
      rw [Nat.mod_eq_of_lt hc]
      split_ifs <;> omega
  case INDY =>
    cases hb : st.currentPageCrossPenalty
    · simp [runMode, CPU.INDY, specPagePenalty, hb]
    · simp only [runMode, CPU.INDY, specPagePenalty, effAddr, baseAddr, pageOf, hb,
        CPU.Read, true_and, apply_ite CPUState.cycles]
      simp only [eq_self_iff_true, true_or, or_true, true_and]
      rw [Nat.mod_eq_of_lt hc]
      split_ifs <;> omega

theorem runInstruction_cycles (i : Instr) (address : Nat) (st : CPUState) :
    (runInstruction i address st).cycles = st.cycles := by
  cases i
  case LDA => simp [runInstruction, CPU.LDA, CPU.LoadRegister, SZN_cycles]
  case LDX => simp [runInstruction, CPU.LDX, CPU.LoadRegister, SZN_cycles]
  case LDY => simp [runInstruction, CPU.LDY, CPU.LoadRegister, SZN_cycles]
  case STA => rfl
  case STX => rfl
  case STY => rfl
  case ADC => exact (ADC_regs address st).2.2.2.2.1
  case SBC => exact (SBC_regs address st).2.2.2.2.1
  case INC => simp [runInstruction, CPU.INC, Write_cycles, SZN_cycles]
  case DEC => simp [runInstruction, CPU.DEC, Write_cycles, SZN_cycles]
  case INX => simp [runInstruction, CPU.INX, SZN_cycles]
  case INY => simp [runInstruction, CPU.INY, SZN_cycles]
  case DEX => simp [runInstruction, CPU.DEX, SZN_cycles]
  case DEY => simp [runInstruction, CPU.DEY, SZN_cycles]

theorem runInstruction_s (i : Instr) (address : Nat) (st : CPUState) :
    (runInstruction i address st).s = st.s := by
  cases i
  case LDA => simp [runInstruction, CPU.LDA, CPU.LoadRegister, SZN_s]
  case LDX => simp [runInstruction, CPU.LDX, CPU.LoadRegister, SZN_s]
  case LDY => simp [runInstruction, CPU.LDY, CPU.LoadRegister, SZN_s]
  case STA => rfl
  case STX => rfl
  case STY => rfl
  case ADC => exact (ADC_regs address st).2.2.1
  case SBC => exact (SBC_regs address st).2.2.1
  case INC => simp [runInstruction, CPU.INC, Write_s, SZN_s]
  case DEC => simp [runInstruction, CPU.DEC, Write_s, SZN_s]
  case INX => simp [runInstruction, CPU.INX, SZN_s]
  case INY => simp [runInstruction, CPU.INY, SZN_s]
  case DEX => simp [runInstruction, CPU.DEX, SZN_s]
  case DEY => simp [runInstruction, CPU.DEY, SZN_s]

theorem runInstruction_p_mask (i : Instr) (address : Nat) (st : CPUState) :
    (runInstruction i address st).p &&& preservedMask i = st.p &&& preservedMask i := by
  cases i
  case LDA => simp [runInstruction, CPU.LDA, CPU.LoadRegister, preservedMask, SZN_p_rest]
  case LDX => simp [runInstruction, CPU.LDX, CPU.LoadRegister, preservedMask, SZN_p_rest]
  case LDY => simp [runInstruction, CPU.LDY, CPU.LoadRegister, preservedMask, SZN_p_rest]
  case STA => rfl
  case STX => rfl
  case STY => rfl
  case ADC => exact ADC_rest address st
  case SBC => exact SBC_rest address st
  case INC => simp [runInstruction, CPU.INC, preservedMask, Write_p, SZN_p_rest]
  case DEC => simp [runInstruction, CPU.DEC, preservedMask, Write_p, SZN_p_rest]
  case INX => simp [runInstruction, CPU.INX, preservedMask, SZN_p_rest]
  case INY => simp [runInstruction, CPU.INY, preservedMask, SZN_p_rest]
  case DEX => simp [runInstruction, CPU.DEX, preservedMask, SZN_p_rest]
  case DEY => simp [runInstruction, CPU.DEY, preservedMask, SZN_p_rest]

theorem specPagePenalty_le_one (honored : Bool) (m : Mode) (st : CPUState) :
    specPagePenalty honored m st ≤ 1 := by
  unfold specPagePenalty; split <;> omega

theorem preservedMask_and28 (i : Instr) : preservedMask i &&& 28 = 28 := by
  cases i <;> decide

theorem xor255_and_self : ∀ m < 256, (255 ^^^ m) &&& m = 0 := by decide

/-!
Claim theorems.
-/

/-- C1: for every opcode present in the decode table and every CPU and bus
state, one `Tick` increases the cycle counter by the entry's base cycles plus
the spec-side page-cross penalty (which is 1 exactly when the entry's
`pageCrossPenalty` flag is honored, the addressing mode is ABSX, ABSY or
INDY, and the computed effective address lies in a different page than the
base address, and 0 otherwise); the penalty is added during addressing-mode
resolution, before the base-cycle add, and the instruction handlers never
change the cycle counter. -/
theorem claim1_tick_cycle_accounting (st : CPUState) (i : Instr) (m : Mode)
    (hi : (opcodeTable (CPU.Read st st.pc)).instructionMethod = some i)
    (hm : (opcodeTable (CPU.Read st st.pc)).addressingModeMethod = some m)
    (hcy : st.cycles + (opcodeTable (CPU.Read st st.pc)).cycles + 1 < 2 ^ 64) :
    (Tick st).1.cycles =
      st.cycles +
        specPagePenalty (opcodeTable (CPU.Read st st.pc)).pageCrossPenalty m
          { st with pc := (st.pc + 1) % 65536,
                    currentPageCrossPenalty :=
                      (opcodeTable (CPU.Read st st.pc)).pageCrossPenalty } +
        (opcodeTable (CPU.Read st st.pc)).cycles ∧
    (runMode m
        { st with pc := (st.pc + 1) % 65536,
                  currentPageCrossPenalty :=
                    (opcodeTable (CPU.Read st st.pc)).pageCrossPenalty }).2.cycles =
      st.cycles +
        specPagePenalty (opcodeTable (CPU.Read st st.pc)).pageCrossPenalty m
          { st with pc := (st.pc + 1) % 65536,
                    currentPageCrossPenalty :=
                      (opcodeTable (CPU.Read st st.pc)).pageCrossPenalty } ∧
    (∀ i2 a2 t2, (runInstruction i2 a2 t2).cycles = t2.cycles) := by
  have hb2 : ({ st with pc := (st.pc + 1) % 65536, currentPageCrossPenalty := (opcodeTable (CPU.Read st st.pc)).pageCrossPenalty } : CPUState).cycles + 1 < 2 ^ 64 := by
    simp only []
    omega
  have hmode := runMode_cycles m _ hb2
  have hpen := specPagePenalty_le_one
    (opcodeTable (CPU.Read st st.pc)).pageCrossPenalty m
    { st with pc := (st.pc + 1) % 65536, currentPageCrossPenalty := (opcodeTable (CPU.Read st st.pc)).pageCrossPenalty }
  refine ⟨?_, ?_, fun i2 a2 t2 => runInstruction_cycles i2 a2 t2⟩
  · simp only [Tick, hi, hm]
    rw [runInstruction_cycles, hmode]
    simp only []
    rw [Nat.mod_eq_of_lt (by omega)]
  · rw [hmode]

/-- Witness for C1 at the concrete state whose memory holds the LDA-immediate
opcode everywhere. -/
theorem claim1_tick_cycle_witness :
    (Tick stLdaImm).1.cycles =
      stLdaImm.cycles +
        specPagePenalty (opcodeTable (CPU.Read stLdaImm stLdaImm.pc)).pageCrossPenalty Mode.IMM
          { stLdaImm with pc := (stLdaImm.pc + 1) % 65536,
                          currentPageCrossPenalty :=
                            (opcodeTable (CPU.Read stLdaImm stLdaImm.pc)).pageCrossPenalty } +
        (opcodeTable (CPU.Read stLdaImm stLdaImm.pc)).cycles :=
  (claim1_tick_cycle_accounting stLdaImm Instr.LDA Mode.IMM (by decide) (by decide)
    (by decide)).1

/-- C7: for every opcode whose decode-table entry has a null instruction
handler or a null addressing-mode handler, `Tick` emits a diagnostic naming
the opcode, advances PC by exactly one (modulo 2^16), performs no bus write,
and leaves the cycle counter and the A, X, Y, S and P registers unchanged. -/
theorem claim7_unimplemented_opcode (st : CPUState)
    (h : (opcodeTable (CPU.Read st st.pc)).instructionMethod = none ∨
         (opcodeTable (CPU.Read st st.pc)).addressingModeMethod = none) :
    (Tick st).2 = some (CPU.Read st st.pc) ∧
    (Tick st).1.pc = (st.pc + 1) % 65536 ∧
    (Tick st).1.writes = st.writes ∧
    (Tick st).1.mem = st.mem ∧
    (Tick st).1.cycles = st.cycles ∧
    (Tick st).1.a = st.a ∧ (Tick st).1.x = st.x ∧ (Tick st).1.y = st.y ∧
    (Tick st).1.s = st.s ∧ (Tick st).1.p = st.p := by
  rcases h1 : (opcodeTable (CPU.Read st st.pc)).instructionMethod with _ | i
  · simp [Tick, h1]
  · rcases h with h | h
    · rw [h1] at h; exact absurd h (by simp)
    · simp [Tick, h1, h]

/-- Witness for C7 at the concrete state whose memory holds opcode 0x00
(unimplemented) everywhere. -/
theorem claim7_unimplemented_witness :
    (Tick stBadOp).2 = some 0 ∧ (Tick stBadOp).1.pc = (stBadOp.pc + 1) % 65536 :=
  ⟨(claim7_unimplemented_opcode stBadOp (Or.inl (by decide))).1,
   (claim7_unimplemented_opcode stBadOp (Or.inl (by decide))).2.1⟩

/-- C10: `Tick` never changes the stack pointer, for any opcode and any CPU
and bus state; no addressing mode or instruction handler writes S; S is set
to 0xFD by `Reset` and to the given byte by `SetStackPointer`. -/
theorem claim10_stack_pointer_frame :
    (∀ st, (Tick st).1.s = st.s) ∧
    (∀ st, (Reset st).s = 0xFD) ∧
    (∀ st value, (SetStackPointer value st).s = value % 256) ∧
    (∀ m st, (runMode m st).2.s = st.s) ∧
    (∀ i address st, (runInstruction i address st).s = st.s) := by
  refine ⟨?_, fun st => rfl, fun st value => rfl, runMode_s, runInstruction_s⟩
  intro st
  rcases h1 : (opcodeTable (CPU.Read st st.pc)).instructionMethod with _ | i
  · simp [Tick, h1]
  · rcases h2 : (opcodeTable (CPU.Read st st.pc)).addressingModeMethod with _ | m
    · simp [Tick, h1, h2]
    · simp only [Tick, h1, h2]
      rw [runInstruction_s, runMode_s]

/-- C4: the IND addressing mode consumes the two pointer bytes at PC and
produces the target whose high byte is read from the start of the pointer's
own page when the pointer's low byte is 0xFF, and from `pointer + 1`
otherwise; in particular, with pointer 0x02FF and memory 0x34 at 0x02FF,
0x12 at 0x0200 and 0x99 at 0x0300, the produced target is 0x1234 (high byte
from 0x0200), not 0x9934 (which would use 0x0300). -/
theorem claim4_ind_page_wrap :
    (∀ st : CPUState,
      (CPU.IND st).1 = specIndTarget st ∧ (CPU.IND st).2.pc = (st.pc + 2) % 65536) ∧
    (CPU.IND stIndBug).1 = 0x1234 ∧ (CPU.IND stIndBug).1 ≠ 0x9934 := by
  refine ⟨fun st => ⟨?_, by simp [CPU.IND]⟩, by decide, by decide⟩
  unfold CPU.IND specIndTarget
  simp only [Read_set_pc]
  have hlo : CPU.Read st st.pc < 256 := Nat.mod_lt _ (by norm_num)
  have hptr : CPU.Read st ((st.pc + 1) % 65536) * 256 + CPU.Read st st.pc
      = CPU.Read st st.pc + 256 * CPU.Read st ((st.pc + 1) % 65536) := by ring
  rw [hptr]
  by_cases hb : CPU.Read st st.pc = 255
  · rw [if_pos hb,
      if_pos (show (CPU.Read st st.pc + 256 * CPU.Read st ((st.pc + 1) % 65536)) % 256 = 255
        by omega),
      show (CPU.Read st st.pc + 256 * CPU.Read st ((st.pc + 1) % 65536))
          - (CPU.Read st st.pc + 256 * CPU.Read st ((st.pc + 1) % 65536)) % 256
          = (CPU.Read st st.pc + 256 * CPU.Read st ((st.pc + 1) % 65536)) / 256 * 256
        by omega]
    ring
  · rw [if_neg hb,
      if_neg (show ¬(CPU.Read st st.pc + 256 * CPU.Read st ((st.pc + 1) % 65536)) % 256 = 255
        by omega)]
    ring

/-- C5 counterexample: at PC = 0x8000 with offset byte 0x10, REL returns
0x8010 — the signed offset added to the address of the offset byte itself —
whereas the claim states it returns (PC + 1) + offset = 0x8011. -/
theorem claim5_rel_counterexample :
    (CPU.REL stRel).1 = 0x8010 ∧ (CPU.REL stRel).1 ≠ (stRel.pc + 1 + 0x10) % 65536 := by
  constructor <;> decide

/-- C5 amended: REL reads the offset byte at PC, interprets it as signed
two's-complement in [-128, +127], leaves PC + 1 in the program counter, and
returns (PC + signed offset) mod 2^16, where PC is the address of the offset
byte itself (not the address after it). -/
theorem claim5_rel_amended (st : CPUState) :
    (CPU.REL st).2.pc = (st.pc + 1) % 65536 ∧
    (CPU.REL st).1 =
      (if CPU.Read st st.pc < 128
       then (st.pc + CPU.Read st st.pc) % 65536
       else (st.pc + CPU.Read st st.pc + 65280) % 65536) := by
  refine ⟨rfl, ?_⟩
  simp only [CPU.REL]
  split_ifs with h <;> omega

/-- C6 counterexample: the decode table holds non-null handlers for 59
opcodes, not 58 as the claim states. -/
theorem claim6_table_counterexample :
    (List.range 256).countP (fun o => (opcodeTable o).instructionMethod.isSome) ≠ 58 := by
  decide

/-- C6 amended: the decode table holds non-null handler entries for exactly
the 59 opcodes enumerated as LDA×8, LDX×5, LDY×5, STA×7, STX×3, STY×3,
ADC×8, SBC×8, INC×4, DEC×4 and INX/INY/DEX/DEY, and every entry outside
this set is the value-initialized null entry. -/
theorem claim6_table_amended :
    (List.range 256).countP (fun o => (opcodeTable o).instructionMethod.isSome) = 59 ∧
    (∀ o : Fin 256,
      ((opcodeTable o.val).instructionMethod.isSome = true ∨
       (opcodeTable o.val).addressingModeMethod.isSome = true) ↔
        o.val ∈ implementedOpcodes) ∧
    implementedOpcodes.length = 59 ∧ implementedOpcodes.Nodup ∧
    (∀ o : Fin 256, o.val ∉ implementedOpcodes → opcodeTable o.val = nullEntry) ∧
    (List.range 256).countP
        (fun o => decide ((opcodeTable o).instructionMethod = some Instr.LDA)) = 8 ∧
    (List.range 256).countP
        (fun o => decide ((opcodeTable o).instructionMethod = some Instr.LDX)) = 5 ∧
    (List.range 256).countP
        (fun o => decide ((opcodeTable o).instructionMethod = some Instr.LDY)) = 5 ∧
    (List.range 256).countP
        (fun o => decide ((opcodeTable o).instructionMethod = some Instr.STA)) = 7 ∧
    (List.range 256).countP
        (fun o => decide ((opcodeTable o).instructionMethod = some Instr.STX)) = 3 ∧
    (List.range 256).countP
        (fun o => decide ((opcodeTable o).instructionMethod = some Instr.STY)) = 3 ∧
    (List.range 256).countP
        (fun o => decide ((opcodeTable o).instructionMethod = some Instr.ADC)) = 8 ∧
    (List.range 256).countP
        (fun o => decide ((opcodeTable o).instructionMethod = some Instr.SBC)) = 8 ∧
    (List.range 256).countP
        (fun o => decide ((opcodeTable o).instructionMethod = some Instr.INC)) = 4 ∧
    (List.range 256).countP
        (fun o => decide ((opcodeTable o).instructionMethod = some Instr.DEC)) = 4 ∧
    (List.range 256).countP
        (fun o => decide ((opcodeTable o).instructionMethod = some Instr.INX)) = 1 ∧
    (List.range 256).countP
        (fun o => decide ((opcodeTable o).instructionMethod = some Instr.INY)) = 1 ∧
    (List.range 256).countP
        (fun o => decide ((opcodeTable o).instructionMethod = some Instr.DEX)) = 1 ∧
    (List.range 256).countP
        (fun o => decide ((opcodeTable o).instructionMethod = some Instr.DEY)) = 1 := by
  decide

/-- Witness for C6 amended: opcode 0x00 lies outside the implemented set and
its entry is the value-initialized null entry. -/
theorem claim6_table_witness : opcodeTable 0 = nullEntry :=
  claim6_table_amended.2.2.2.2.1 ⟨0, by decide⟩ (by decide)

/-- C8 counterexample: with mask 0, `ClearFlags` followed by `IsFlagSet`
returns true (because `(P & 0) == 0` holds), not false as the claim states
for every 8-bit mask. -/
theorem claim8_flags_counterexample :
    CPU.IsFlagSet 0 (CPU.ClearFlags 0 stZero) = true := by decide

/-- C8 amended: for every status-register value, `SetFlags m` followed by
`IsFlagSet m` returns true for every 8-bit mask m, `ClearFlags m` followed
by `IsFlagSet m` returns false for every nonzero 8-bit mask m, and
`IsFlagSet mask` returns true iff `(P & mask) = mask`. -/
theorem claim8_flags_amended (st : CPUState) (mask : Nat) (hm : mask < 256) :
    CPU.IsFlagSet mask (CPU.SetFlags mask st) = true ∧
    (mask ≠ 0 → CPU.IsFlagSet mask (CPU.ClearFlags mask st) = false) ∧
    (CPU.IsFlagSet mask st = true ↔ st.p &&& mask = mask) := by
  refine ⟨?_, ?_, by simp [CPU.IsFlagSet]⟩
  · simp [CPU.IsFlagSet, CPU.SetFlags, or_and_self]
  · intro h0
    have hz : (255 ^^^ mask) &&& mask = 0 := xor255_and_self mask hm
    simp [CPU.IsFlagSet, CPU.ClearFlags, Nat.land_assoc, hz, and_zero_right,
      Ne.symm h0]

/-- Witness for C8 amended at mask 1 on the all-zero state. -/
theorem claim8_flags_witness :
    CPU.IsFlagSet 1 (CPU.SetFlags 1 stZero) = true ∧
    CPU.IsFlagSet 1 (CPU.ClearFlags 1 stZero) = false :=
  ⟨(claim8_flags_amended stZero 1 (by decide)).1,
   (claim8_flags_amended stZero 1 (by decide)).2.1 (by decide)⟩

theorem Read_set_p (st : CPUState) (q address : Nat) :
    CPU.Read { st with p := q } address = CPU.Read st address := rfl

theorem Read_SetFlags (flag : Nat) (st : CPUState) (address : Nat) :
    CPU.Read (CPU.SetFlags flag st) address = CPU.Read st address := rfl

theorem or8_and1 (p : Nat) : (p ||| 8) &&& 1 = p &&& 1 :=
  and_or_skip p 8 1 (by decide)

theorem xor255_sub : ∀ m < 256, 255 ^^^ m = 255 - m := by decide

/-- C9: every instruction handler preserves status bits 2, 3 and 4
(InterruptDisable, Decimal, Break): each handler leaves the bits of its
`preservedMask` unchanged (0x7D for loads and increments/decrements, which
touch only Zero and Negative; stores leave P entirely unchanged; 0x3C for
ADC/SBC, which touch only Carry, Zero, Overflow and Negative); mask 0x1C —
bits 2, 3, 4 — lies inside every preserved mask, so every Tick that
dispatches an in-scope opcode preserves those three bits. -/
theorem claim9_flag_frame :
    (∀ i address st, (runInstruction i address st).p &&& preservedMask i =
        st.p &&& preservedMask i) ∧
    (∀ i, preservedMask i &&& 28 = 28) ∧
    (∀ address st, (runInstruction Instr.STA address st).p = st.p) ∧
    (∀ address st, (runInstruction Instr.STX address st).p = st.p) ∧
    (∀ address st, (runInstruction Instr.STY address st).p = st.p) ∧
    (∀ st i m, (opcodeTable (CPU.Read st st.pc)).instructionMethod = some i →
      (opcodeTable (CPU.Read st st.pc)).addressingModeMethod = some m →
      (Tick st).1.p &&& 28 = st.p &&& 28) := by
  refine ⟨runInstruction_p_mask, preservedMask_and28, fun a2 st => rfl, fun a2 st => rfl,
    fun a2 st => rfl, ?_⟩
  intro st i m h1 h2
  simp only [Tick, h1, h2]
  rw [and_of_and_eq (preservedMask i) 28 (runInstruction_p_mask i _ _) (preservedMask_and28 i),
    runMode_p]

/-- Witness for C9 at the concrete LDA-immediate state. -/
theorem claim9_flag_frame_witness :
    (Tick stLdaImm).1.p &&& 28 = stLdaImm.p &&& 28 :=
  claim9_flag_frame.2.2.2.2.2 stLdaImm Instr.LDA Mode.IMM (by decide) (by decide)

/-- C2: ADC reads the operand, adds it and the carry-in to A modulo 256, sets
Carry iff the 9-bit sum exceeds 0xFF, Zero iff the 8-bit result is 0,
Overflow iff bit 7 of A equals bit 7 of the operand while bit 7 of the
result differs from bit 7 of A, Negative iff bit 7 of the result is set, and
behaves identically whether or not the Decimal flag is set. -/
theorem claim2_adc_functional (st : CPUState) (address : Nat) (ha : st.a < 256) :
    (CPU.ADC address st).a =
      (st.a + CPU.Read st address + (if CPU.IsFlagSet Status.Carry st then 1 else 0)) % 256 ∧
    (CPU.IsFlagSet Status.Carry (CPU.ADC address st) = true ↔
      st.a + CPU.Read st address + (if CPU.IsFlagSet Status.Carry st then 1 else 0) > 255) ∧
    (CPU.IsFlagSet Status.Zero (CPU.ADC address st) = true ↔ (CPU.ADC address st).a = 0) ∧
    (CPU.IsFlagSet Status.Overflow (CPU.ADC address st) = true ↔
      (st.a.testBit 7 = (CPU.Read st address).testBit 7 ∧
        ¬((CPU.ADC address st).a.testBit 7 = st.a.testBit 7))) ∧
    (CPU.IsFlagSet Status.Negative (CPU.ADC address st) = true ↔
      (CPU.ADC address st).a.testBit 7 = true) ∧
    (CPU.ADC address (CPU.SetFlags Status.Decimal st)).a = (CPU.ADC address st).a ∧
    (∀ f, f = Status.Carry ∨ f = Status.Zero ∨ f = Status.Overflow ∨ f = Status.Negative →
      CPU.IsFlagSet f (CPU.ADC address (CPU.SetFlags Status.Decimal st)) =
        CPU.IsFlagSet f (CPU.ADC address st)) := by
  have hv : CPU.Read st address < 256 := Nat.mod_lt _ (by norm_num)
  refine ⟨ADC_a address st, ?_, ?_, ?_, ?_, ?_, ?_⟩
  · simp only [CPU.IsFlagSet, Status.Carry, beq_iff_eq, ADC_carry]
    split_ifs with h <;> first | omega | (rw [false_iff]; omega)
  · simp only [CPU.IsFlagSet, Status.Zero, beq_iff_eq, ADC_zero, ADC_a]
    split_ifs with h <;> first | omega | (rw [false_iff]; omega)
  · simp only [CPU.IsFlagSet, Status.Overflow, Status.Carry, beq_iff_eq, ADC_overflow, ADC_a,
      Nat.testBit_to_div_mod, show (2 : Nat) ^ 7 = 128 by norm_num, decide_eq_decide,
      ne_eq, decide_eq_true_eq]
    split_ifs with h <;> first | omega | (rw [false_iff]; omega)
  · simp only [CPU.IsFlagSet, Status.Negative, Status.Carry, beq_iff_eq, ADC_negative, ADC_a,
      Nat.testBit_to_div_mod, show (2 : Nat) ^ 7 = 128 by norm_num, decide_eq_true_eq]
    split_ifs with h <;> first | omega | (rw [false_iff]; omega)
  · rw [ADC_a, ADC_a]
    have h3 : CPU.IsFlagSet Status.Carry (CPU.SetFlags Status.Decimal st) =
        CPU.IsFlagSet Status.Carry st := by
      simp only [CPU.IsFlagSet, CPU.SetFlags, Status.Carry, Status.Decimal]
      rw [and_or_skip _ 8 1 (by decide)]
    rw [show (CPU.SetFlags Status.Decimal st).a = st.a from rfl,
      Read_SetFlags, h3]
  · have h3 : CPU.IsFlagSet Status.Carry (CPU.SetFlags Status.Decimal st) =
        CPU.IsFlagSet Status.Carry st := by
      simp only [CPU.IsFlagSet, CPU.SetFlags, Status.Carry, Status.Decimal]
      rw [and_or_skip _ 8 1 (by decide)]
    rintro f (rfl | rfl | rfl | rfl)
    · simp only [CPU.IsFlagSet, Status.Carry, ADC_carry, CPU.SetFlags, Status.Decimal,
        Read_set_p, or8_and1]
    · simp only [CPU.IsFlagSet, Status.Zero, Status.Carry, ADC_zero, CPU.SetFlags,
        Status.Decimal, Read_set_p, or8_and1]
    · simp only [CPU.IsFlagSet, Status.Overflow, Status.Carry, ADC_overflow, CPU.SetFlags,
        Status.Decimal, Read_set_p, or8_and1]
    · simp only [CPU.IsFlagSet, Status.Negative, Status.Carry, ADC_negative, CPU.SetFlags,
        Status.Decimal, Read_set_p, or8_and1]

/-- Witness for C2 on the all-zero state at address 0. -/
theorem claim2_adc_witness :
    (CPU.ADC 0 stZero).a =
      (stZero.a + CPU.Read stZero 0 +
        (if CPU.IsFlagSet Status.Carry stZero then 1 else 0)) % 256 :=
  (claim2_adc_functional stZero 0 (by decide)).1

/-- C3: with the Carry flag set, running SBC on an operand byte v produces the
same final accumulator and the same Negative, Zero, Carry and Overflow flags
as running ADC from the same starting registers on an address holding the
bitwise complement of v. -/
theorem claim3_sbc_adc_dual (a v p x y sp2 pc cyc : Nat) (flag : Bool) (address : Nat)
    (ha : a < 256) (hv : v < 256) (hp : p &&& 1 = 1) :
    (CPU.SBC address (⟨a, x, y, sp2, p, pc, cyc, flag, fun _ => v, []⟩ : CPUState)).a =
      (CPU.ADC address
        (⟨a, x, y, sp2, p, pc, cyc, flag, fun _ => 255 ^^^ v, []⟩ : CPUState)).a ∧
    (∀ f, f = Status.Negative ∨ f = Status.Zero ∨ f = Status.Carry ∨ f = Status.Overflow →
      CPU.IsFlagSet f
          (CPU.SBC address (⟨a, x, y, sp2, p, pc, cyc, flag, fun _ => v, []⟩ : CPUState)) =
        CPU.IsFlagSet f
          (CPU.ADC address
            (⟨a, x, y, sp2, p, pc, cyc, flag, fun _ => 255 ^^^ v, []⟩ : CPUState))) := by
  have hxor : 255 ^^^ v = 255 - v := xor255_sub v hv
  have hr1 : CPU.Read (⟨a, x, y, sp2, p, pc, cyc, flag, fun _ => v, []⟩ : CPUState) address
      = v := by
    simp [CPU.Read, Nat.mod_eq_of_lt hv]
  have hr2 : CPU.Read
      (⟨a, x, y, sp2, p, pc, cyc, flag, fun _ => 255 ^^^ v, []⟩ : CPUState) address
      = 255 - v := by
    simp [CPU.Read, hxor, Nat.mod_eq_of_lt (show 255 - v < 256 by omega)]
  constructor
  · simp only [SBC_a, ADC_a, hr1, hr2, CPU.IsFlagSet, Status.Carry]
    simp only [show (⟨a, x, y, sp2, p, pc, cyc, flag, fun _ => v, []⟩ : CPUState).p = p from rfl,
      show (⟨a, x, y, sp2, p, pc, cyc, flag, fun _ => 255 ^^^ v, []⟩ : CPUState).p = p from rfl,
      show (⟨a, x, y, sp2, p, pc, cyc, flag, fun _ => v, []⟩ : CPUState).a = a from rfl,
      show (⟨a, x, y, sp2, p, pc, cyc, flag, fun _ => 255 ^^^ v, []⟩ : CPUState).a = a from rfl,
      hp]
    simp only [beq_self_eq_true, if_true]
    omega
  · rintro f (rfl | rfl | rfl | rfl) <;>
      simp only [CPU.IsFlagSet, Status.Negative, Status.Zero, Status.Carry, Status.Overflow,
        SBC_negative, SBC_zero, SBC_carry, SBC_overflow,
        ADC_negative, ADC_zero, ADC_carry, ADC_overflow, hr1, hr2] <;>
      simp only [show (⟨a, x, y, sp2, p, pc, cyc, flag, fun _ => v, []⟩ : CPUState).p = p from
          rfl,
        show (⟨a, x, y, sp2, p, pc, cyc, flag, fun _ => 255 ^^^ v, []⟩ : CPUState).p = p from
          rfl,
        show (⟨a, x, y, sp2, p, pc, cyc, flag, fun _ => v, []⟩ : CPUState).a = a from rfl,
        show (⟨a, x, y, sp2, p, pc, cyc, flag, fun _ => 255 ^^^ v, []⟩ : CPUState).a = a from
          rfl,
        hp, beq_self_eq_true, if_true] <;>
      split_ifs with h1 h2 <;> first | rfl | (exfalso; omega)

/-- Witness for C3 at A = 5, v = 3, P = 1. -/
theorem claim3_sbc_adc_witness :
    (CPU.SBC 0 (⟨5, 0, 0, 0, 1, 0, 0, false, fun _ => 3, []⟩ : CPUState)).a =
      (CPU.ADC 0 (⟨5, 0, 0, 0, 1, 0, 0, false, fun _ => 255 ^^^ 3, []⟩ : CPUState)).a :=
  (claim3_sbc_adc_dual 5 3 1 0 0 0 0 0 false 0 (by decide) (by decide) (by decide)).1

end NesCpu
